import Mathlib

/-!
Verification of the DBusWrapper property-cache library (shallow embedding).

The embedding translates the C++ sources of the repository:
  - `include/dbustarget.h` — the `Target` value type;
  - `src/dbuspropertycache.cpp` / `src/dbuspropertycache_p.h` — the
    `PropertyCacheBackend`, `PropertyCacheThreadData`, `PropertyCachePrivate`
    and `PropertyCache` classes.

Qt types are modelled as follows: `QVariant` becomes the sum type `Value`
(with `Value.invalid` for the default-constructed invalid variant);
`QVariantMap` becomes an association list `PropMap` with unique keys;
`QDBusError` becomes `DBusError`, carrying an error type (`isValid` is true
exactly when the type is not `noError`).  Signal emissions become explicit
lists of `Signal` / `BEvent` values, and asynchronous D-Bus dispatches become
lists of `MethodCall` values, so that every side effect of a C++ method shows
up in the return value of the corresponding Lean function.
-/

namespace DBusWrapper

/-- Model of QVariant restricted to the payloads the library moves around.
`invalid` is the default-constructed (invalid) QVariant. -/
inductive Value where
  | invalid
  | str (s : String)
  | int (n : Int)
  | bool (b : Bool)
deriving DecidableEq

/-- Model of `QDBusError::ErrorType` (the subset the library distinguishes,
plus `other` for everything passed through opaquely). `noError` is the type of
a default-constructed `QDBusError`. -/
inductive ErrorType where
  | noError
  | serviceUnknown
  | unknownObject
  | unknownInterface
  | other
deriving DecidableEq

/-- Model of `QDBusError`: an error type and a message. -/
structure DBusError where
  type : ErrorType
  message : String
deriving DecidableEq

/-- `QDBusError::isValid()`: true iff the error type is a valid error. -/
def DBusError.isValid (e : DBusError) : Bool :=
  e.type ≠ ErrorType.noError

/-- The default-constructed `QDBusError()` (no error). -/
def noError : DBusError := ⟨ErrorType.noError, ""⟩

/-- Model of `QVariantMap`: an association list from property name to value.
QMap keys are unique; theorems that need uniqueness take a `Nodup` hypothesis
on the key list. -/
abbrev PropMap := List (String × Value)

/-- Lookup of a key's binding (`QMap::find`). -/
def mapLookup (m : PropMap) (k : String) : Option Value :=
  match m with
  | [] => none
  | kv :: rest => if kv.1 = k then some kv.2 else mapLookup rest k

/-- `QMap::value(key)`: the bound value, or a default-constructed (invalid)
QVariant when the key is missing. -/
def mapValue (m : PropMap) (k : String) : Value :=
  (mapLookup m k).getD Value.invalid

/-- `QMap::contains(key)`. -/
def mapContains (m : PropMap) (k : String) : Bool :=
  (mapLookup m k).isSome

/-- `QMap::insert(key, value)`: replaces an existing binding or appends a new
one. -/
def mapInsert (m : PropMap) (k : String) (v : Value) : PropMap :=
  match m with
  | [] => [(k, v)]
  | kv :: rest => if kv.1 = k then (k, v) :: rest else kv :: mapInsert rest k v

/-- Model of `DBusWrapper::Target` (dbustarget.h): the tuple
(bus, service, path, interface). The bus is identified by its connection
name. -/
structure Target where
  busName : String
  service : String
  path : String
  interface : String
deriving DecidableEq

/-- `Target::isValid()`: service, path and interface are all non-empty. -/
def Target.isValid (t : Target) : Bool :=
  !t.service.isEmpty && !t.path.isEmpty && !t.interface.isEmpty

/-- `Target::withInterface(i)`. -/
def Target.withInterface (t : Target) (i : String) : Target :=
  { t with interface := i }

/-- `k_property_interface` (dbusutilities). -/
def propertyInterface : String := "org.freedesktop.DBus.Properties"

/-- An argument of a D-Bus method call as built by `Target::createMethodCall`:
QString arguments are passed as strings, QVariant arguments are wrapped as the
D-Bus `variant` type. -/
inductive DBusArg where
  | string (s : String)
  | variant (v : Value)
deriving DecidableEq

/-- A dispatched asynchronous D-Bus method call (`QDBusMessage` built by
`Target::createMethodCall` and sent with `asyncCall`). -/
structure MethodCall where
  service : String
  path : String
  interface : String
  member : String
  args : List DBusArg
deriving DecidableEq

/-- The signals of `PropertyCacheThreadData` / `PropertyCache`
(dbuspropertycache_p.h / dbuspropertycache.h). -/
inductive Signal where
  | availableChanged (available : Bool)
  | errorChanged (error : DBusError)
  | ready
  | lost
  | propertyChanged (property : String) (value : Value)
  | propertiesReset (properties : PropMap)
deriving DecidableEq

/-- The state of `PropertyCacheThreadData`: a thread's view of the data for a
target. -/
structure ThreadData where
  m_properties : PropMap
  m_error : DBusError
  m_available : Bool
deriving DecidableEq

/-- The first `propertyChanged` loop of `PropertyCacheThreadData::reset`
(dbuspropertycache.cpp:436-441): one signal per key of the new map whose
value differs from the old map or was absent from it. -/
def resetChangedSignals (before values : PropMap) : List Signal :=
  values.filterMap (fun kv =>
    match mapLookup before kv.1 with
    | none => some (Signal.propertyChanged kv.1 kv.2)
    | some bv => if bv ≠ kv.2 then some (Signal.propertyChanged kv.1 kv.2) else none)

/-- The second `propertyChanged` loop of `PropertyCacheThreadData::reset`
(dbuspropertycache.cpp:442-446): one `propertyChanged(key, invalid)` per key
of the old map absent from the new map. -/
def resetRemovedSignals (before values : PropMap) : List Signal :=
  before.filterMap (fun kv =>
    if mapContains values kv.1 then none else some (Signal.propertyChanged kv.1 Value.invalid))

/-- The signal sequence emitted by `PropertyCacheThreadData::reset`
(dbuspropertycache.cpp:410-452), in source order: `availableChanged` if
availability changed, `errorChanged` if the error type changed,
`propertiesReset` if either map is non-empty, `propertyChanged` for each new
key whose value differs or was absent, `propertyChanged(key, invalid)` for
each removed key, then `lost` / `ready`. -/
def resetSignals (td : ThreadData) (values : PropMap) (error : DBusError) : List Signal :=
  let available : Bool := !error.isValid
  let wasAvailable := td.m_available
  let before := td.m_properties
  let errorChange : Bool := decide (td.m_error.type ≠ error.type)
  (if wasAvailable != available then [Signal.availableChanged available] else [])
  ++ (if errorChange then [Signal.errorChanged error] else [])
  ++ (if !values.isEmpty || !before.isEmpty then [Signal.propertiesReset values] else [])
  ++ resetChangedSignals before values
  ++ resetRemovedSignals before values
  ++ (if wasAvailable && !available then [Signal.lost] else [])
  ++ (if !wasAvailable && available then [Signal.ready] else [])

/-- `PropertyCacheThreadData::reset(values, error)`: replaces the local state
(`m_available`, `m_error`, `m_properties` are all assigned before the first
`emit`), then emits `resetSignals`.  Each emitted signal is paired with the
thread-local state visible to a listener at the moment of that emission: since
every assignment precedes every `emit` in the source, that state is the
post-update state for every signal. -/
def threadDataReset (td : ThreadData) (values : PropMap) (error : DBusError) :
    ThreadData × List (ThreadData × Signal) :=
  let post : ThreadData := { m_properties := values, m_error := error, m_available := !error.isValid }
  (post, (resetSignals td values error).map fun s => (post, s))

/-- `PropertyCacheThreadData::changeProperties(values)`
(dbuspropertycache.cpp:454-461): all values are written into `m_properties`
before any signal is emitted; then `propertyChanged` is emitted for each entry
of `values` in order.  As in `threadDataReset`, each signal is paired with the
state a listener observes at that emission. -/
def threadDataChange (td : ThreadData) (values : PropMap) :
    ThreadData × List (ThreadData × Signal) :=
  let post : ThreadData :=
    { td with m_properties := values.foldl (fun m kv => mapInsert m kv.1 kv.2) td.m_properties }
  (post, values.map fun kv => (post, Signal.propertyChanged kv.1 kv.2))

/-- The signals of `PropertyCacheBackend` (dbuspropertycache_p.h): a full
state replacement or a delta merge, broadcast to all ThreadData instances. -/
inductive BEvent where
  | reset (values : PropMap) (error : DBusError)
  | change (values : PropMap)
deriving DecidableEq

/-- The state of `PropertyCacheBackend`: the authoritative per-target state.
`m_pendingLoad` models whether a `QDBusPendingCallWatcher` for a `GetAll` is
outstanding; `m_watcher` models whether the service-owner watch and
`PropertiesChanged` subscription have been installed. -/
structure Backend where
  m_target : Target
  m_properties : PropMap
  m_error : DBusError
  m_available : Bool
  m_pendingLoad : Bool
  m_watcher : Bool
deriving DecidableEq

/-- The state of a freshly constructed `PropertyCacheBackend(target)`: empty
properties, default error, unavailable, no pending load, no watcher.  The
constructor queues a `load()` on the backend thread. -/
def initBackend (t : Target) : Backend :=
  { m_target := t, m_properties := [], m_error := noError, m_available := false,
    m_pendingLoad := false, m_watcher := false }

/-- The `GetAll` message built by `PropertyCacheBackend::load`:
`propertiesTarget().createMethodCall("GetAll", m_target.interface())`, where
`propertiesTarget()` is the target with interface
`org.freedesktop.DBus.Properties`. -/
def getAllCall (t : Target) : MethodCall :=
  { service := t.service, path := t.path, interface := propertyInterface,
    member := "GetAll", args := [DBusArg.string t.interface] }

/-- `PropertyCacheBackend::load` (dbuspropertycache.cpp:568-586): returns
immediately when a load is pending; otherwise installs the watcher (if not
yet installed), dispatches a `GetAll` for the target, and records the pending
call.  The dispatched calls are returned in the second component. -/
def load (b : Backend) : Backend × List MethodCall :=
  if b.m_pendingLoad then (b, [])
  else ({ b with m_watcher := true, m_pendingLoad := true }, [getAllCall b.m_target])

/-- `PropertyCacheBackend::doReset` (dbuspropertycache.cpp:633-645): replaces
the backend state (`m_available := !error.isValid()`) and emits
`reset(properties, error)`. -/
def doReset (b : Backend) (properties : PropMap) (error : DBusError) : Backend × List BEvent :=
  ({ b with m_properties := properties, m_error := error, m_available := !error.isValid },
   [BEvent.reset properties error])

/-- `PropertyCacheBackend::loadReply` (dbuspropertycache.cpp:588-608).
`isCurrent` models the `w != m_pendingLoad` guard (a stale watcher's reply is
dropped).  A failed reply resets to an empty map with the reply's error; a
successful reply resets to the replied map with no error. -/
def loadReply (b : Backend) (isCurrent : Bool) (reply : Except DBusError PropMap) :
    Backend × List BEvent :=
  if !isCurrent then (b, [])
  else
    let b1 := { b with m_pendingLoad := false }
    match reply with
    | Except.error e => doReset b1 [] e
    | Except.ok values => doReset b1 values noError

/-- `PropertyCacheBackend::serviceOwnerChanged` (dbuspropertycache.cpp:610-631):
cancels any pending load; if the new owner is empty the state resets to an
empty map with a `ServiceUnknown` error, otherwise a delayed `load()` is
scheduled (the returned Bool). -/
def serviceOwnerChanged (b : Backend) (newOwner : String) : Backend × List BEvent × Bool :=
  let b1 := { b with m_pendingLoad := false }
  if newOwner.isEmpty then
    let r := doReset b1 [] ⟨ErrorType.serviceUnknown, "DBus service disconnected"⟩
    (r.1, r.2, false)
  else (b1, [], true)

/-- One step of the filtering loop in `PropertyCacheBackend::propertiesChanged`
(dbuspropertycache.cpp:664-676): a key absent from the cache is inserted and
kept in the delta; a key with a different value is updated and kept; a key
with an equal value is erased from the delta. -/
def filterMergeStep (acc : PropMap × PropMap) (kv : String × Value) : PropMap × PropMap :=
  match mapLookup acc.1 kv.1 with
  | none => (mapInsert acc.1 kv.1 kv.2, acc.2 ++ [kv])
  | some cv => if cv ≠ kv.2 then (mapInsert acc.1 kv.1 kv.2, acc.2 ++ [kv]) else acc

/-- The filtering loop of `PropertyCacheBackend::propertiesChanged`: returns
the updated cache and the filtered delta (kept entries, in the order of
`values`). -/
def filterMerge (cache values : PropMap) : PropMap × PropMap :=
  values.foldl filterMergeStep (cache, [])

/-- `PropertyCacheBackend::propertiesChanged` (dbuspropertycache.cpp:647-678):
while a load is pending the signal is dropped; while unavailable the payload
is discarded and `load()` runs; otherwise the filtered delta is merged into
`m_properties` and `changeProperties(delta)` is emitted (unconditionally, even
when the filtered delta is empty).  Returns (state, backend events, dispatched
calls). -/
def backendPropertiesChanged (b : Backend) (values : PropMap) :
    Backend × List BEvent × List MethodCall :=
  if b.m_pendingLoad then (b, [], [])
  else if !b.m_available then
    let r := load b
    (r.1, [], r.2)
  else
    let fm := filterMerge b.m_properties values
    ({ b with m_properties := fm.1 }, [BEvent.change fm.2], [])

/-- The state of a `PropertyCache` handle (`PropertyCachePrivate`): the
`initialized` flag is its only mutable state; the shared `ThreadData` is
passed to each operation explicitly. -/
structure Handle where
  initialized : Bool
deriving DecidableEq

/-- `PropertyCache::isAvailable` (dbuspropertycache.cpp:262-265). -/
def cacheIsAvailable (h : Handle) (td : ThreadData) : Bool :=
  h.initialized && td.m_available

/-- `PropertyCache::error` (dbuspropertycache.cpp:267-273): a
default-constructed `QDBusError` until initialized. -/
def cacheError (h : Handle) (td : ThreadData) : DBusError :=
  if h.initialized then td.m_error else noError

/-- `PropertyCache::get` (dbuspropertycache.cpp:281-286): an invalid QVariant
until initialized, else `m_properties.value(property)`. -/
def cacheGet (h : Handle) (td : ThreadData) (property : String) : Value :=
  if h.initialized then mapValue td.m_properties property else Value.invalid

/-- `PropertyCache::contains` (dbuspropertycache.cpp:288-293). -/
def cacheContains (h : Handle) (td : ThreadData) (property : String) : Bool :=
  h.initialized && mapContains td.m_properties property

/-- `PropertyCache::getAll` (dbuspropertycache.cpp:295-300). -/
def cacheGetAll (h : Handle) (td : ThreadData) : PropMap :=
  if h.initialized then td.m_properties else []

/-- `PropertyCachePrivate` initialization (dbuspropertycache.cpp:350-374):
if already initialized, nothing happens; otherwise the handle's re-emitters
are connected to the ThreadData signals (the returned Bool), `initialized` is
set, `errorChanged` is emitted if an error is present, and if the view is
available the sequence `availableChanged(true)`, `propertiesReset`, one
`propertyChanged` per property, `ready` is emitted. -/
def privInit (h : Handle) (td : ThreadData) : Handle × Bool × List Signal :=
  if h.initialized then (h, false, [])
  else
    let sigs :=
      (if td.m_error.isValid then [Signal.errorChanged td.m_error] else [])
      ++ (if !td.m_available then []
          else [Signal.availableChanged true, Signal.propertiesReset td.m_properties]
               ++ td.m_properties.map (fun kv => Signal.propertyChanged kv.1 kv.2)
               ++ [Signal.ready])
    (⟨true⟩, true, sigs)

/-- `PropertyCache` initialization entry point (dbuspropertycache.cpp:275-279):
runs the private initialization, then returns `m_available || m_error.isValid()`
from the (unmodified) ThreadData.  Result: (handle, connected, signals,
return value). -/
def cacheInit (h : Handle) (td : ThreadData) : Handle × Bool × List Signal × Bool :=
  let r := privInit h td
  (r.1, r.2.1, r.2.2, td.m_available || td.m_error.isValid)

/-- The `PropertyCachePrivate` constructor (dbuspropertycache.cpp:330-343):
when the ThreadData holds neither data nor an error, initialization runs
inline; otherwise it is queued on the event loop (the final Bool: true iff
deferred).  Result: (handle, connected, signals emitted during construction,
deferred). -/
def constructCache (td : ThreadData) : Handle × Bool × List Signal × Bool :=
  if !td.m_available && !td.m_error.isValid then
    let r := privInit ⟨false⟩ td
    (r.1, r.2.1, r.2.2, false)
  else (⟨false⟩, false, [], true)

/-- A log entry produced by a completion callback. -/
inductive LogEntry where
  | warning (text : String)
deriving DecidableEq

/-- The `Set` message built by `PropertyCache::set`:
`target.withInterface(k_property_interface).createMethodCall("Set",
target.interface(), property, value)`; the QVariant argument is wrapped as a
D-Bus variant. -/
def setCall (t : Target) (property : String) (value : Value) : MethodCall :=
  { service := t.service, path := t.path, interface := propertyInterface,
    member := "Set",
    args := [DBusArg.string t.interface, DBusArg.string property, DBusArg.variant value] }

/-- `PropertyCache::set` (dbuspropertycache.cpp:302-319): dispatches the
asynchronous `Set` call and attaches a completion callback; the method writes
none of the handle's or ThreadData's state, so both are returned unchanged
along with the dispatched call. -/
def cacheSet (h : Handle) (td : ThreadData) (t : Target) (property : String) (value : Value) :
    Handle × ThreadData × MethodCall :=
  (h, td, setCall t property value)

/-- The completion callback attached by `PropertyCache::set`
(dbuspropertycache.cpp:311-318): a failed reply is logged at warning; a
successful reply produces nothing.  No state is touched either way. -/
def setFinished (property : String) (reply : Except DBusError Unit) : List LogEntry :=
  match reply with
  | Except.error _ => [LogEntry.warning ("failed to set property " ++ property)]
  | Except.ok _ => []

/-- The Backend invariants of the specification: B1 `available ⇒ error absent`
and B2 `¬available ⇒ properties empty`. -/
def backendInv (b : Backend) : Prop :=
  (b.m_available = true → b.m_error.isValid = false)
  ∧ (b.m_available = false → b.m_properties = [])

instance (b : Backend) : Decidable (backendInv b) := by
  unfold backendInv
  infer_instance

/-- A concrete invalid target (empty service) used to settle claims about
validity checking. -/
def emptyServiceTarget : Target :=
  { busName := "session", service := "", path := "/test/service", interface := "test.service" }

/-- A concrete available backend caching `a ↦ 1`, used for concrete
evaluations of `PropertyCacheBackend::propertiesChanged`. -/
def availBackendA1 : Backend :=
  { m_target := { busName := "session", service := "test.service",
                  path := "/test/service", interface := "test.service" },
    m_properties := [("a", Value.int 1)], m_error := noError,
    m_available := true, m_pendingLoad := false, m_watcher := true }

/- ===================== Lemmas about the map model ===================== -/

theorem mapLookup_insert_self (m : PropMap) (k : String) (v : Value) :
    mapLookup (mapInsert m k v) k = some v := by
  induction m with
  | nil => simp [mapInsert, mapLookup]
  | cons kv rest ih =>
    by_cases h : kv.1 = k
    · simp [mapInsert, h, mapLookup]
    · simp [mapInsert, h, mapLookup, ih]

theorem mapLookup_insert_ne (m : PropMap) (k k' : String) (v : Value) (h : k' ≠ k) :
    mapLookup (mapInsert m k v) k' = mapLookup m k' := by
  induction m with
  | nil => simp [mapInsert, mapLookup, Ne.symm h]
  | cons kv rest ih =>
    by_cases h1 : kv.1 = k
    · simp [mapInsert, h1, mapLookup, Ne.symm h]
    · by_cases h2 : kv.1 = k'
      · simp [mapInsert, h1, mapLookup, h2, h]
      · simp [mapInsert, h1, mapLookup, h2, h, ih]

theorem mapLookup_eq_none_of_not_mem (m : PropMap) (k : String)
    (h : k ∉ m.map Prod.fst) : mapLookup m k = none := by
  induction m with
  | nil => rfl
  | cons kv rest ih =>
    simp only [List.map_cons, List.mem_cons, not_or] at h
    simp [mapLookup, Ne.symm h.1, ih h.2]

theorem mapLookup_of_mem_nodup (m : PropMap) (kv : String × Value)
    (hnd : (m.map Prod.fst).Nodup) (hm : kv ∈ m) : mapLookup m kv.1 = some kv.2 := by
  induction m with
  | nil => cases hm
  | cons hd rest ih =>
    rcases List.mem_cons.mp hm with he | hmem
    · subst he; simp [mapLookup]
    · have hne : hd.1 ≠ kv.1 := by
        intro he
        exact (List.nodup_cons.mp hnd).1 (he ▸ List.mem_map_of_mem Prod.fst hmem)
      simp [mapLookup, hne, ih (List.nodup_cons.mp hnd).2 hmem]

theorem mapContains_of_mem (m : PropMap) (kv : String × Value) (hm : kv ∈ m) :
    mapContains m kv.1 = true := by
  induction m with
  | nil => cases hm
  | cons hd rest ih =>
    by_cases h : hd.1 = kv.1
    · simp [mapContains, mapLookup, h]
    · rcases List.mem_cons.mp hm with he | hmem
      · subst he; exact absurd rfl h
      · simp [mapContains, mapLookup, h] at ih ⊢
        exact ih hmem

/- ===================== Lemmas about the filtering merge ===================== -/

theorem filterMergeFold_all_equal (values : PropMap) : ∀ (cache kept : PropMap),
    (∀ kv ∈ values, mapLookup cache kv.1 = some kv.2) →
    values.foldl filterMergeStep (cache, kept) = (cache, kept) := by
  induction values with
  | nil => intro cache kept _; rfl
  | cons kv rest ih =>
    intro cache kept h
    have h0 := h kv (List.mem_cons_self kv rest)
    have hstep : filterMergeStep (cache, kept) kv = (cache, kept) := by
      simp [filterMergeStep, h0]
    rw [List.foldl_cons, hstep]
    exact ih cache kept (fun kv' hm => h kv' (List.mem_cons_of_mem _ hm))

theorem filterMergeFold_delta (values : PropMap) : ∀ (cache kept : PropMap),
    (values.map Prod.fst).Nodup →
    (values.foldl filterMergeStep (cache, kept)).2
      = kept ++ values.filter (fun kv => decide (mapLookup cache kv.1 ≠ some kv.2)) := by
  induction values with
  | nil => intro cache kept _; simp
  | cons kv rest ih =>
    intro cache kept hnd
    have hnd' : (rest.map Prod.fst).Nodup := (List.nodup_cons.mp (by simpa using hnd)).2
    have hkey : kv.1 ∉ rest.map Prod.fst := (List.nodup_cons.mp (by simpa using hnd)).1
    have hcong : ∀ kv' ∈ rest,
        (decide (mapLookup (mapInsert cache kv.1 kv.2) kv'.1 ≠ some kv'.2) : Bool)
          = decide (mapLookup cache kv'.1 ≠ some kv'.2) := by
      intro kv' hm
      have hne : kv'.1 ≠ kv.1 := fun he => hkey (he ▸ List.mem_map_of_mem Prod.fst hm)
      rw [mapLookup_insert_ne _ _ _ _ hne]
    cases hc : mapLookup cache kv.1 with
    | none =>
      have hstep : filterMergeStep (cache, kept) kv
          = (mapInsert cache kv.1 kv.2, kept ++ [kv]) := by
        simp [filterMergeStep, hc]
      rw [List.foldl_cons, hstep, ih _ _ hnd', List.filter_congr hcong, List.filter_cons]
      simp [hc]
    | some cv =>
      by_cases hv : cv = kv.2
      · have hstep : filterMergeStep (cache, kept) kv = (cache, kept) := by
          simp [filterMergeStep, hc, hv]
        rw [List.foldl_cons, hstep, ih _ _ hnd', List.filter_cons]
        simp [hc, hv]
      · have hstep : filterMergeStep (cache, kept) kv
            = (mapInsert cache kv.1 kv.2, kept ++ [kv]) := by
          simp [filterMergeStep, hc, hv]
        rw [List.foldl_cons, hstep, ih _ _ hnd', List.filter_congr hcong, List.filter_cons]
        simp [hc, hv]

theorem filterMergeFold_lookup (values : PropMap) : ∀ (cache kept : PropMap) (k : String),
    (values.map Prod.fst).Nodup →
    mapLookup (values.foldl filterMergeStep (cache, kept)).1 k
      = (match mapLookup values k with
         | some v => some v
         | none => mapLookup cache k) := by
  induction values with
  | nil => intro cache kept k _; rfl
  | cons kv rest ih =>
    intro cache kept k hnd
    have hnd' : (rest.map Prod.fst).Nodup := (List.nodup_cons.mp (by simpa using hnd)).2
    have hkey : kv.1 ∉ rest.map Prod.fst := (List.nodup_cons.mp (by simpa using hnd)).1
    have hrest0 : mapLookup rest kv.1 = none := mapLookup_eq_none_of_not_mem rest kv.1 hkey
    by_cases hk : kv.1 = k
    · subst hk
      cases hc : mapLookup cache kv.1 with
      | none =>
        have hstep : filterMergeStep (cache, kept) kv
            = (mapInsert cache kv.1 kv.2, kept ++ [kv]) := by simp [filterMergeStep, hc]
        rw [List.foldl_cons, hstep, ih _ _ _ hnd', hrest0, mapLookup_insert_self]
        simp [mapLookup]
      | some cv =>
        by_cases hv : cv = kv.2
        · have hstep : filterMergeStep (cache, kept) kv = (cache, kept) := by
            simp [filterMergeStep, hc, hv]
          rw [List.foldl_cons, hstep, ih _ _ _ hnd', hrest0, hc, hv]
          simp [mapLookup]
        · have hstep : filterMergeStep (cache, kept) kv
              = (mapInsert cache kv.1 kv.2, kept ++ [kv]) := by
            simp [filterMergeStep, hc, hv]
          rw [List.foldl_cons, hstep, ih _ _ _ hnd', hrest0, mapLookup_insert_self]
          simp [mapLookup]
    · have hhead : mapLookup (kv :: rest) k = mapLookup rest k := by
        simp [mapLookup, hk]
      cases hc : mapLookup cache kv.1 with
      | none =>
        have hstep : filterMergeStep (cache, kept) kv
            = (mapInsert cache kv.1 kv.2, kept ++ [kv]) := by simp [filterMergeStep, hc]
        rw [List.foldl_cons, hstep, ih _ _ _ hnd', hhead,
          mapLookup_insert_ne _ _ _ _ (fun he => hk he.symm)]
      | some cv =>
        by_cases hv : cv = kv.2
        · have hstep : filterMergeStep (cache, kept) kv = (cache, kept) := by
            simp [filterMergeStep, hc, hv]
          rw [List.foldl_cons, hstep, ih _ _ _ hnd', hhead]
        · have hstep : filterMergeStep (cache, kept) kv
              = (mapInsert cache kv.1 kv.2, kept ++ [kv]) := by
            simp [filterMergeStep, hc, hv]
          rw [List.foldl_cons, hstep, ih _ _ _ hnd', hhead,
            mapLookup_insert_ne _ _ _ _ (fun he => hk he.symm)]

/- ============== Lemmas about the reset signal sequence ============== -/

theorem mem_iteSingleton {α : Type} {a b : α} {c : Prop} [Decidable c] :
    (a ∈ (if c then [b] else [])) ↔ (c ∧ a = b) := by
  by_cases h : c <;> simp [h]

theorem mem_resetChangedSignals (before values : PropMap) {s : Signal}
    (hs : s ∈ resetChangedSignals before values) :
    ∃ k v, s = Signal.propertyChanged k v := by
  unfold resetChangedSignals at hs
  rw [List.mem_filterMap] at hs
  obtain ⟨kv, _, heq⟩ := hs
  cases hcl : mapLookup before kv.1 with
  | none =>
    rw [hcl] at heq
    exact ⟨kv.1, kv.2, (Option.some.inj heq).symm⟩
  | some bv =>
    rw [hcl] at heq
    dsimp only at heq
    by_cases hv : bv ≠ kv.2
    · rw [if_pos hv] at heq
      exact ⟨kv.1, kv.2, (Option.some.inj heq).symm⟩
    · rw [if_neg hv] at heq
      cases heq

theorem mem_resetRemovedSignals (before values : PropMap) {s : Signal}
    (hs : s ∈ resetRemovedSignals before values) :
    ∃ k, s = Signal.propertyChanged k Value.invalid := by
  unfold resetRemovedSignals at hs
  rw [List.mem_filterMap] at hs
  obtain ⟨kv, _, heq⟩ := hs
  by_cases hc : mapContains values kv.1
  · simp [hc] at heq
  · simp only [hc] at heq
    rw [if_neg (by simp [hc])] at heq
    exact ⟨kv.1, (Option.some.inj heq).symm⟩

theorem lost_notMem_changed (before values : PropMap) :
    Signal.lost ∉ resetChangedSignals before values := by
  intro hs
  obtain ⟨k, v, h⟩ := mem_resetChangedSignals before values hs
  cases h

theorem lost_notMem_removed (before values : PropMap) :
    Signal.lost ∉ resetRemovedSignals before values := by
  intro hs
  obtain ⟨k, h⟩ := mem_resetRemovedSignals before values hs
  cases h

theorem ready_notMem_changed (before values : PropMap) :
    Signal.ready ∉ resetChangedSignals before values := by
  intro hs
  obtain ⟨k, v, h⟩ := mem_resetChangedSignals before values hs
  cases h

theorem ready_notMem_removed (before values : PropMap) :
    Signal.ready ∉ resetRemovedSignals before values := by
  intro hs
  obtain ⟨k, h⟩ := mem_resetRemovedSignals before values hs
  cases h

theorem trace_snd_eq_resetSignals (td : ThreadData) (values : PropMap) (error : DBusError) :
    (threadDataReset td values error).2.map Prod.snd = resetSignals td values error := by
  simp [threadDataReset, List.map_map, Function.comp]

theorem resetChangedSignals_self (values : PropMap)
    (hkeys : (values.map Prod.fst).Nodup) :
    resetChangedSignals values values = [] := by
  unfold resetChangedSignals
  rw [List.filterMap_eq_nil_iff]
  intro kv hm
  rw [mapLookup_of_mem_nodup values kv hkeys hm]
  simp

theorem resetRemovedSignals_self (values : PropMap) :
    resetRemovedSignals values values = [] := by
  unfold resetRemovedSignals
  rw [List.filterMap_eq_nil_iff]
  intro kv hm
  simp [mapContains_of_mem values kv hm]

/- ===================== Claim theorems ===================== -/

/-- C6: before `initialize()` has run (the handle's `initialized` flag is
still false), `get` returns an invalid value, `contains` returns false,
`is_available` returns false, `get_all` returns the empty map and `error`
returns absent (a default-constructed `QDBusError`), regardless of the state
held by the shared ThreadView. -/
theorem C6_reads_before_init (td : ThreadData) (k : String) :
    cacheGet ⟨false⟩ td k = Value.invalid
    ∧ cacheContains ⟨false⟩ td k = false
    ∧ cacheIsAvailable ⟨false⟩ td = false
    ∧ cacheGetAll ⟨false⟩ td = []
    ∧ cacheError ⟨false⟩ td = noError := by
  refine ⟨?_, ?_, ?_, ?_, ?_⟩ <;> simp [cacheGet, cacheContains, cacheIsAvailable,
    cacheGetAll, cacheError]

/-- C9: `PropertyCache::set(key, value)` never modifies the local cached
state — the handle and the ThreadView are returned unchanged — and it
dispatches an asynchronous `Set` call to `org.freedesktop.DBus.Properties`
at the target's service and path, with arguments (interface, key,
variant-wrapped value); the completion callback merely logs a warning on a
failure reply and nothing on success, surfacing nothing to the caller. -/
theorem C9_set_frame_and_dispatch (h : Handle) (td : ThreadData) (t : Target)
    (p : String) (v : Value) (e : DBusError) :
    cacheSet h td t p v = (h, td, setCall t p v)
    ∧ (setCall t p v).service = t.service
    ∧ (setCall t p v).path = t.path
    ∧ (setCall t p v).interface = propertyInterface
    ∧ (setCall t p v).member = "Set"
    ∧ (setCall t p v).args = [DBusArg.string t.interface, DBusArg.string p, DBusArg.variant v]
    ∧ setFinished p (Except.error e) = [LogEntry.warning ("failed to set property " ++ p)]
    ∧ setFinished p (Except.ok ()) = [] :=
  ⟨rfl, rfl, rfl, rfl, rfl, rfl, rfl, rfl⟩

/-- C7 counterexample: for a ThreadView holding no state (unavailable, no
error — the state every fresh ThreadView starts in), the `PropertyCache`
constructor does NOT defer `initialize()`: it runs it inline
(dbuspropertycache.cpp:338-339), refuting the claim that construction always
schedules `initialize()` as a deferred task. -/
theorem C7_counterexample :
    (constructCache ⟨[], noError, false⟩).2.2.2 = false := rfl

/-- C7 amended: the constructor runs `initialize()` inline exactly when the
ThreadView holds no state (not available and no error present); it defers
`initialize()` to the event loop exactly when the ThreadView already holds
state (available or failed).  Inline initialization emits no signals, so in
every case zero signals are emitted during construction and the caller can
still connect its signals before any initialization signal fires. -/
theorem C7_construction_defers_iff_state (td : ThreadData) :
    (constructCache td).2.2.1 = []
    ∧ (constructCache td).2.2.2 = (td.m_available || td.m_error.isValid) := by
  cases hav : td.m_available <;> cases herr : td.m_error.isValid <;>
    simp [constructCache, privInit, hav, herr]

/-- C3 counterexample: for the invalid target with an empty service string,
the freshly constructed backend's queued `load()` still dispatches a `GetAll`
request (`PropertyCacheBackend::load` performs no validity check), refuting
the claim that the library never dispatches a `GetAll` for an invalid
Target. -/
theorem C3_counterexample :
    emptyServiceTarget.isValid = false
    ∧ (load (initBackend emptyServiceTarget)).2 = [getAllCall emptyServiceTarget] :=
  ⟨rfl, rfl⟩

/-- C3 amended: `PropertyCacheBackend::load` performs no Target validity
check: the load queued by constructing the backend for any target — valid or
invalid — dispatches exactly one `GetAll` request for that target; the only
condition under which `load()` dispatches nothing is that a `GetAll` is
already pending. -/
theorem C3_load_has_no_validity_check (t : Target) (b : Backend) :
    (load (initBackend t)).2 = [getAllCall t]
    ∧ (b.m_pendingLoad = true → load b = (b, [])) := by
  constructor
  · rfl
  · intro hp
    simp [load, hp]

/-- Witness for C3's amended theorem at a concrete backend with a pending
load. -/
theorem C3_load_has_no_validity_check_witness :
    (load (initBackend emptyServiceTarget)).2 = [getAllCall emptyServiceTarget]
    ∧ load { initBackend emptyServiceTarget with m_pendingLoad := true }
        = ({ initBackend emptyServiceTarget with m_pendingLoad := true }, []) :=
  ⟨(C3_load_has_no_validity_check emptyServiceTarget
      { initBackend emptyServiceTarget with m_pendingLoad := true }).1,
   (C3_load_has_no_validity_check emptyServiceTarget
      { initBackend emptyServiceTarget with m_pendingLoad := true }).2 rfl⟩

/-- C2 counterexample: an available backend caching `a ↦ 1` receives
`PropertiesChanged({a ↦ 1})`; the filtered delta is empty, yet the code
still emits `change([])` (dbuspropertycache.cpp:677 has no emptiness guard),
refuting the claim that `change(delta)` is emitted only if the filtered
delta is non-empty. -/
theorem C2_counterexample :
    backendPropertiesChanged availBackendA1 [("a", Value.int 1)]
      = (availBackendA1, [BEvent.change []], []) := rfl

/-- C2 amended: when the Backend receives `PropertiesChanged(changed_map)`:
if a GetAll is pending the signal is dropped entirely; else if the Backend is
unavailable the payload is discarded and a `load()` is triggered; else the
Backend produces a filtered delta by dropping every entry whose value equals
the currently cached value, writes the kept entries into its property map,
and emits `change(delta)` unconditionally — also when the filtered delta is
empty (an empty `change` produces no downstream signals). -/
theorem C2_properties_changed_behavior (b : Backend) (values : PropMap)
    (hkeys : (values.map Prod.fst).Nodup) :
    (b.m_pendingLoad = true → backendPropertiesChanged b values = (b, [], []))
    ∧ (b.m_pendingLoad = false → b.m_available = false →
        backendPropertiesChanged b values = ((load b).1, [], (load b).2))
    ∧ (b.m_pendingLoad = false → b.m_available = true →
        backendPropertiesChanged b values =
          ({ b with m_properties := (filterMerge b.m_properties values).1 },
           [BEvent.change (filterMerge b.m_properties values).2], []))
    ∧ (filterMerge b.m_properties values).2
        = values.filter (fun kv => decide (mapLookup b.m_properties kv.1 ≠ some kv.2))
    ∧ (∀ k, mapLookup (filterMerge b.m_properties values).1 k
        = (match mapLookup values k with
           | some v => some v
           | none => mapLookup b.m_properties k)) := by
  refine ⟨?_, ?_, ?_, ?_, ?_⟩
  · intro hp; simp [backendPropertiesChanged, hp]
  · intro hp hav; simp [backendPropertiesChanged, hp, hav]
  · intro hp hav; simp [backendPropertiesChanged, hp, hav]
  · simpa using filterMergeFold_delta values b.m_properties [] hkeys
  · intro k; exact filterMergeFold_lookup values b.m_properties [] k hkeys

/-- Witness for C2's amended theorem: a concrete available backend receiving
a fresh value, with every hypothesis discharged. -/
theorem C2_properties_changed_behavior_witness :
    backendPropertiesChanged availBackendA1 [("b", Value.int 2)]
      = ({ availBackendA1 with
             m_properties := (filterMerge availBackendA1.m_properties [("b", Value.int 2)]).1 },
         [BEvent.change (filterMerge availBackendA1.m_properties [("b", Value.int 2)]).2], []) :=
  (C2_properties_changed_behavior availBackendA1 [("b", Value.int 2)] (by decide)).2.2.1 rfl rfl

/-- C4: the Backend state invariants B1 (`available ⇒ error absent`) and B2
(`¬available ⇒ property map empty`) are preserved by every Backend state
transition: a load reply (current or stale, success or failure), a
service-owner change (owner lost or appeared), and a `PropertiesChanged`
signal. -/
theorem C4_backend_invariants (b : Backend) (hb : backendInv b) (cur : Bool)
    (reply : Except DBusError PropMap) (owner : String) (values : PropMap) :
    backendInv (loadReply b cur reply).1
    ∧ backendInv (serviceOwnerChanged b owner).1
    ∧ backendInv (backendPropertiesChanged b values).1 := by
  obtain ⟨hb1, hb2⟩ := hb
  refine ⟨?_, ?_, ?_⟩
  · cases cur with
    | false => simpa [loadReply, backendInv] using ⟨hb1, hb2⟩
    | true =>
      cases reply with
      | error e =>
        cases he : e.isValid <;>
          simp [loadReply, doReset, backendInv, he]
      | ok vals =>
        simp [loadReply, doReset, backendInv, DBusError.isValid, noError]
  · cases howner : owner.isEmpty with
    | true => simp [serviceOwnerChanged, doReset, backendInv, howner, DBusError.isValid]
    | false => simpa [serviceOwnerChanged, backendInv, howner] using ⟨hb1, hb2⟩
  · cases hp : b.m_pendingLoad with
    | true => simpa [backendPropertiesChanged, hp, backendInv] using ⟨hb1, hb2⟩
    | false =>
      cases hav : b.m_available with
      | false =>
        simpa [backendPropertiesChanged, hp, hav, load, backendInv] using hb2 hav
      | true =>
        simp [backendPropertiesChanged, hp, hav, backendInv, hb1 hav]

/-- Witness for C4 at a concrete backend satisfying the invariants. -/
theorem C4_backend_invariants_witness :
    backendInv (loadReply availBackendA1 true (Except.ok [("a", Value.int 1)])).1
    ∧ backendInv (serviceOwnerChanged availBackendA1 "").1
    ∧ backendInv (backendPropertiesChanged availBackendA1 [("a", Value.int 2)]).1 :=
  C4_backend_invariants availBackendA1 (by decide) true
    (Except.ok [("a", Value.int 1)]) "" [("a", Value.int 2)]

/-- C5: `PropertyCache::initialize()` always returns
`available ∨ error-present` read from the ThreadView; when the cache was not
yet initialized this is true exactly when signals were emitted immediately
(it is false exactly when the ThreadView is still loading, in which case
nothing is emitted); when it was already initialized, nothing is re-emitted
and the handle is unchanged. -/
theorem C5_init_return_value (h : Handle) (td : ThreadData) :
    (cacheInit h td).2.2.2 = (td.m_available || td.m_error.isValid)
    ∧ (h.initialized = false →
        ((cacheInit h td).2.2.2 = true ↔ (cacheInit h td).2.2.1 ≠ []))
    ∧ (h.initialized = true →
        (cacheInit h td).2.2.1 = [] ∧ (cacheInit h td).1 = h) := by
  obtain ⟨hi⟩ := h
  cases hi <;> cases hav : td.m_available <;> cases herr : td.m_error.isValid <;>
    simp [cacheInit, privInit, hav, herr]

/-- Witness for C5 at an uninitialized handle over a failed ThreadView. -/
theorem C5_init_return_value_witness :
    (cacheInit ⟨false⟩ ⟨[], ⟨ErrorType.serviceUnknown, "gone"⟩, false⟩).2.2.2 = true
      ↔ (cacheInit ⟨false⟩ ⟨[], ⟨ErrorType.serviceUnknown, "gone"⟩, false⟩).2.2.1 ≠ [] :=
  (C5_init_return_value ⟨false⟩ ⟨[], ⟨ErrorType.serviceUnknown, "gone"⟩, false⟩).2.1 rfl

/-- C10: `initialize()` is idempotent.  Signal connections happen exactly on
the first call that runs (and on no later call); calling `initialize()` again
after any call leaves the handle unchanged, makes no connection, emits
nothing, and only recomputes the return value from the current ThreadView
state. -/
theorem C10_init_idempotent (h : Handle) (td : ThreadData) :
    cacheInit (cacheInit h td).1 td
      = ((cacheInit h td).1, false, [], (td.m_available || td.m_error.isValid))
    ∧ (h.initialized = false → (cacheInit h td).2.1 = true)
    ∧ (h.initialized = true → (cacheInit h td).2.1 = false) := by
  obtain ⟨hi⟩ := h
  cases hi <;> simp [cacheInit, privInit]

/-- Witness for C10 at an uninitialized handle. -/
theorem C10_init_idempotent_witness :
    (cacheInit (⟨false⟩ : Handle) ⟨[], noError, false⟩).2.1 = true :=
  (C10_init_idempotent ⟨false⟩ ⟨[], noError, false⟩).2.1 rfl

/-- C1: on a `reset(new_props, new_error)` event the ThreadView first
replaces its entire local state (`properties`, `error`,
`available = error absent`), and every signal of the sequence is emitted with
that post-update state in effect (so any `get`/`get_all`/`contains` from a
listener observes the post-update state).  The signals come in exactly this
order with these conditions: `availableChanged(available)` iff availability
changed; `errorChanged(error)` iff the error kind changed;
`propertiesReset(properties)` iff the old or the new map is non-empty;
`propertyChanged(key, value)` for every key whose value differs from the old
map or was absent; `propertyChanged(key, invalid)` for every old key absent
from the new map; `lost()` iff the view went from available to unavailable;
`ready()` iff it went from unavailable to available. -/
theorem C1_reset_state_then_ordered_signals (td : ThreadData) (values : PropMap)
    (error : DBusError) :
    (threadDataReset td values error).1
        = { m_properties := values, m_error := error, m_available := !error.isValid }
    ∧ ((threadDataReset td values error).2.map Prod.fst
        = List.replicate (threadDataReset td values error).2.length
            { m_properties := values, m_error := error, m_available := !error.isValid })
    ∧ ((threadDataReset td values error).2.map Prod.snd
        = (if td.m_available != !error.isValid
             then [Signal.availableChanged (!error.isValid)] else [])
          ++ (if td.m_error.type ≠ error.type then [Signal.errorChanged error] else [])
          ++ (if !values.isEmpty || !td.m_properties.isEmpty
                then [Signal.propertiesReset values] else [])
          ++ resetChangedSignals td.m_properties values
          ++ resetRemovedSignals td.m_properties values
          ++ (if td.m_available && error.isValid then [Signal.lost] else [])
          ++ (if !td.m_available && !error.isValid then [Signal.ready] else []))
    ∧ (Signal.lost ∈ (threadDataReset td values error).2.map Prod.snd
        ↔ (td.m_available = true ∧ error.isValid = true))
    ∧ (Signal.ready ∈ (threadDataReset td values error).2.map Prod.snd
        ↔ (td.m_available = false ∧ error.isValid = false)) := by
  have hch := lost_notMem_changed td.m_properties values
  have hrm := lost_notMem_removed td.m_properties values
  have hch' := ready_notMem_changed td.m_properties values
  have hrm' := ready_notMem_removed td.m_properties values
  refine ⟨rfl, ?_, ?_, ?_, ?_⟩
  · simp [threadDataReset, List.map_map, Function.comp]
  · rw [trace_snd_eq_resetSignals]
    cases hav : td.m_available <;> cases herr : error.isValid <;>
      simp [resetSignals, hav, herr]
  · rw [trace_snd_eq_resetSignals]
    cases hav : td.m_available <;> cases herr : error.isValid <;>
      simp [resetSignals, hav, herr, List.mem_append, mem_iteSingleton, hch, hrm]
  · rw [trace_snd_eq_resetSignals]
    cases hav : td.m_available <;> cases herr : error.isValid <;>
      simp [resetSignals, hav, herr, List.mem_append, mem_iteSingleton, hch', hrm']

/-- C8: redundant updates are idempotent at the signal level.  Delivering a
second `reset` with a payload identical to the current ThreadView state
changes nothing and emits zero `propertyChanged` signals; a `PropertiesChanged`
whose entries all equal the Backend's cached values leaves the Backend's map
unchanged and emits `change([])`, and delivering an empty `change` to a
ThreadView emits no signal at all — hence no signal on any Handle. -/
theorem C8_redundant_updates_idempotent (td : ThreadData) (values : PropMap)
    (error : DBusError) (hkeys : (values.map Prod.fst).Nodup)
    (b : Backend) (hpend : b.m_pendingLoad = false) (hav : b.m_available = true)
    (vals2 : PropMap) (heq : ∀ kv ∈ vals2, mapLookup b.m_properties kv.1 = some kv.2)
    (td2 : ThreadData) :
    (threadDataReset (threadDataReset td values error).1 values error).1
        = (threadDataReset td values error).1
    ∧ (∀ k v, Signal.propertyChanged k v ∉
        ((threadDataReset (threadDataReset td values error).1 values error).2.map Prod.snd))
    ∧ backendPropertiesChanged b vals2 = (b, [BEvent.change []], [])
    ∧ threadDataChange td2 [] = (td2, []) := by
  refine ⟨rfl, ?_, ?_, ?_⟩
  · intro k v hmem
    rw [trace_snd_eq_resetSignals] at hmem
    have hpost : (threadDataReset td values error).1
        = { m_properties := values, m_error := error, m_available := !error.isValid } := rfl
    rw [hpost] at hmem
    rw [show resetSignals
          { m_properties := values, m_error := error, m_available := !error.isValid }
          values error
        = (if !values.isEmpty || !values.isEmpty
             then [Signal.propertiesReset values] else []) from by
      simp [resetSignals, resetChangedSignals_self values hkeys,
        resetRemovedSignals_self values]] at hmem
    rcases mem_iteSingleton.mp hmem with ⟨_, hco⟩
    cases hco
  · obtain ⟨t, props, err, av, pend, w⟩ := b
    subst hpend
    subst hav
    have hfm : List.foldl filterMergeStep (props, []) vals2 = (props, []) :=
      filterMergeFold_all_equal vals2 props [] heq
    simp [backendPropertiesChanged, filterMerge, hfm]
  · simp [threadDataChange]

/-- Witness for C8: a second identical reset on a concrete ThreadView, and a
value-equal `PropertiesChanged` on a concrete available backend. -/
theorem C8_redundant_updates_idempotent_witness :
    (threadDataReset
        (threadDataReset ⟨[("str", Value.str "hello")], noError, true⟩
          [("str", Value.str "hello")] noError).1
        [("str", Value.str "hello")] noError).1
      = (threadDataReset ⟨[("str", Value.str "hello")], noError, true⟩
          [("str", Value.str "hello")] noError).1
    ∧ backendPropertiesChanged availBackendA1 [("a", Value.int 1)]
        = (availBackendA1, [BEvent.change []], []) :=
  ⟨(C8_redundant_updates_idempotent ⟨[("str", Value.str "hello")], noError, true⟩
      [("str", Value.str "hello")] noError (by decide)
      availBackendA1 rfl rfl [("a", Value.int 1)] (by decide)
      ⟨[], noError, false⟩).1,
   (C8_redundant_updates_idempotent ⟨[("str", Value.str "hello")], noError, true⟩
      [("str", Value.str "hello")] noError (by decide)
      availBackendA1 rfl rfl [("a", Value.int 1)] (by decide)
      ⟨[], noError, false⟩).2.2.1⟩

end DBusWrapper
